import Mathlib

/-!
Shallow embedding of the sync-excal diagram synchronization core.

The definitions below are translated from the TypeScript sources:
  * `detectConflict`, `resolveConflict`  — conflict-detector module
  * `ExcalidrawSyncDatabase` operations  — Dexie/IndexedDB storage layer
  * `SupabaseProvider` operations        — cloud store adapter
  * `SyncEngine` operations              — sync engine

Conventions of the embedding:
  * wall-clock reads (`Date.now()`) are passed in as an explicit `now : Nat`
    argument at each operation boundary;
  * the opaque diagram payload (`ExcalidrawData`) is modelled as a `String`;
  * `number | null` fields become `Option Nat`; the JS coercion `x || 0`
    becomes `jsOr0`, and JS truthiness of an optional number (`x && ...`,
    under which the number `0` is falsy) is made explicit at each use site;
  * asynchronous effects are modelled by explicit state passing over
    `EngineState`; calls into the cloud provider are additionally recorded
    in an event trace (`List Event`);
  * provider/network failures (exceptions caught by the engine) are
    modelled by an explicit failure oracle where an engine operation
    contains a `try/catch`.
-/

namespace SyncExcal

/-- Conflict status of a stored diagram (`'none' | 'conflict' | 'resolved'`). -/
inductive ConflictStatus where
  | none
  | conflict
  | resolved
deriving DecidableEq, Repr

/-- Sync queue operation kind (`'upload' | 'download' | 'delete'`). -/
inductive SyncOp where
  | upload
  | download
  | delete
deriving DecidableEq, Repr

/-- Engine-wide sync status (`'idle' | 'syncing' | 'error' | 'synced'`). -/
inductive SyncStatus where
  | idle
  | syncing
  | error
  | synced
deriving DecidableEq, Repr

/-- Conflict resolution strategy (`'manual' | 'latest' | 'local' | 'cloud'`).
`local` is a Lean keyword, so the last two constructors are spelled
`localWins` / `cloudWins`. -/
inductive Strategy where
  | manual
  | latest
  | localWins
  | cloudWins
deriving DecidableEq, Repr

/-- The `Diagram` record (`src/types/diagram.ts`): metadata plus payload. -/
structure Diagram where
  id : String
  name : String
  data : String
  hash : String
  localTimestamp : Nat
  cloudTimestamp : Option Nat
  cloudId : Option String
  lastSynced : Option Nat
  isSyncing : Bool
  conflictStatus : ConflictStatus
  deviceId : String
  size : Nat
deriving DecidableEq, Repr

/-- A detected conflict pairing the local and cloud snapshots
(`ConflictDiagram`; the source fields are named `local` and `cloud`,
which are Lean keywords). -/
structure ConflictDiagram where
  localDoc : Diagram
  cloudDoc : Diagram
  detectedAt : Nat
deriving DecidableEq, Repr

/-- Result of `detectConflict` (`ConflictCheckResult`). -/
structure ConflictCheckResult where
  hasConflict : Bool
  reason : Option String
  conflict : Option ConflictDiagram
deriving DecidableEq, Repr

/-- `compareHashes` from the crypto utilities: plain string equality. -/
def compareHashes (h1 h2 : String) : Bool :=
  h1 == h2

/-- JS `x || 0` on a `number | null` value. -/
def jsOr0 : Option Nat → Nat
  | Option.none => 0
  | Option.some n => n

/-- JS truthiness of `local.lastSynced && local.localTimestamp > local.lastSynced`:
a missing or zero `lastSynced` is falsy. -/
def lastSyncedAndStale (d : Diagram) : Bool :=
  match d.lastSynced with
  | Option.none => false
  | Option.some t => decide (t ≠ 0) && decide (d.localTimestamp > t)

/-- `detectConflict` from the conflict-detector module. `now` stands for the
`Date.now()` read used for `detectedAt`. -/
def detectConflict (now : Nat) (localDoc cloudDoc : Diagram) : ConflictCheckResult :=
  if compareHashes localDoc.hash cloudDoc.hash then
    { hasConflict := false, reason := Option.none, conflict := Option.none }
  else
    let localTime := localDoc.localTimestamp
    let cloudTime := jsOr0 cloudDoc.cloudTimestamp
    if decide (localTime > cloudTime) && !compareHashes localDoc.hash cloudDoc.hash then
      { hasConflict := true
        reason := Option.some "Both local and cloud versions have been modified"
        conflict := Option.some { localDoc := localDoc, cloudDoc := cloudDoc, detectedAt := now } }
    else if cloudTime > localTime then
      if lastSyncedAndStale localDoc then
        { hasConflict := true
          reason := Option.some "Cloud version is newer but local has unsaved changes"
          conflict := Option.some { localDoc := localDoc, cloudDoc := cloudDoc, detectedAt := now } }
      else
        { hasConflict := false, reason := Option.none, conflict := Option.none }
    else
      { hasConflict := false, reason := Option.none, conflict := Option.none }

/-- `resolveConflict` from the conflict-detector module. The TS function is
declared for `'latest' | 'local' | 'cloud'`; its `default` branch (reached
e.g. for `manual`) returns the local snapshot. -/
def resolveConflict (c : ConflictDiagram) (strategy : Strategy) : Diagram :=
  match strategy with
  | Strategy.latest =>
      if c.localDoc.localTimestamp > jsOr0 c.cloudDoc.cloudTimestamp then c.localDoc
      else c.cloudDoc
  | Strategy.localWins => c.localDoc
  | Strategy.cloudWins => c.cloudDoc
  | Strategy.manual => c.localDoc

/-- `SyncQueueItem` (`src/types/sync.ts`). -/
structure SyncQueueItem where
  id : String
  diagramId : String
  operation : SyncOp
  priority : Nat
  retryCount : Nat
  maxRetries : Nat
  addedAt : Nat
  error : Option String
deriving DecidableEq, Repr

/-- `SyncSettings` (`src/types/sync.ts`). -/
structure SyncSettings where
  autoSync : Bool
  syncInterval : Nat
  conflictResolution : Strategy
  maxRetries : Nat
  retryDelay : Nat
deriving DecidableEq, Repr

/-- `DEFAULT_SYNC_SETTINGS` from the storage layer. -/
def DEFAULT_SYNC_SETTINGS : SyncSettings :=
  { autoSync := true
    syncInterval := 300000
    conflictResolution := Strategy.manual
    maxRetries := 3
    retryDelay := 5000 }

/-- Dexie `Table.put` keyed by `key`: replace the record with the same
primary key, or append the record if the key is new. -/
def putByKey {α : Type} (key : α → String) : List α → α → List α
  | [], x => [x]
  | y :: ys, x => if key y = key x then x :: ys else y :: putByKey key ys x

/-- Dexie `Table.get` keyed by `key`. -/
def getByKey {α : Type} (key : α → String) : List α → String → Option α
  | [], _ => Option.none
  | y :: ys, i => if key y = i then Option.some y else getByKey key ys i

/-- Dexie `Table.delete` keyed by `key`. -/
def delByKey {α : Type} (key : α → String) : List α → String → List α
  | [], _ => []
  | y :: ys, i => if key y = i then delByKey key ys i else y :: delByKey key ys i

/-- Dexie `Table.update id updates`: partial merge of the record with the
given primary key; a no-op when the key is absent. -/
def updByKey {α : Type} (key : α → String) : List α → String → (α → α) → List α
  | [], _, _ => []
  | y :: ys, i, f => (if key y = i then f y else y) :: updByKey key ys i f

/-- Code-point lexicographic order on character lists: the order IndexedDB
uses for string primary keys. -/
def charListLt : List Char → List Char → Bool
  | [], [] => false
  | [], _ :: _ => true
  | _ :: _, [] => false
  | c :: cs, d :: ds =>
      if c.toNat < d.toNat then true
      else if d.toNat < c.toNat then false
      else charListLt cs ds

/-- Non-strict code-point lexicographic order on strings. -/
def strLe (a b : String) : Bool :=
  a == b || charListLt a.data b.data

/-- Insertion into a list sorted by a `Nat` sort key (`le` picks ascending
or descending). Used to model index-ordered IndexedDB enumeration. -/
def insertSorted {α : Type} (le : α → α → Bool) (x : α) : List α → List α
  | [] => [x]
  | y :: ys => if le x y then x :: y :: ys else y :: insertSorted le x ys

/-- Stable insertion sort; models the deterministic enumeration order of a
store index. -/
def sortBy {α : Type} (le : α → α → Bool) : List α → List α
  | [] => []
  | x :: xs => insertSorted le x (sortBy le xs)

/-- The local IndexedDB database (`ExcalidrawSyncDatabase`): the three
object stores the sync core uses. -/
structure DB where
  diagrams : List Diagram
  syncQueue : List SyncQueueItem
  conflicts : List ConflictDiagram
deriving DecidableEq, Repr

/-- `db.saveDiagram`: `diagrams.put`. -/
def DB.saveDiagram (db : DB) (d : Diagram) : DB :=
  { db with diagrams := putByKey Diagram.id db.diagrams d }

/-- `db.getDiagram`: `diagrams.get(id)`. -/
def DB.getDiagram (db : DB) (i : String) : Option Diagram :=
  getByKey Diagram.id db.diagrams i

/-- `db.deleteDiagram`: `diagrams.delete(id)`. -/
def DB.deleteDiagram (db : DB) (i : String) : DB :=
  { db with diagrams := delByKey Diagram.id db.diagrams i }

/-- `db.updateDiagramMetadata(id, updates)`: `diagrams.update` with the
partial record `f` applied to the stored diagram; no-op when absent. -/
def DB.updateDiagramMetadata (db : DB) (i : String) (f : Diagram → Diagram) : DB :=
  { db with diagrams := updByKey Diagram.id db.diagrams i f }

/-- `db.getAllDiagrams`: `diagrams.toArray()`, enumerated in primary-key
(`id`) order. -/
def DB.getAllDiagrams (db : DB) : List Diagram :=
  sortBy (fun a b => strLe a.id b.id) db.diagrams

/-- `db.addToSyncQueue`: `syncQueue.put`. -/
def DB.addToSyncQueue (db : DB) (item : SyncQueueItem) : DB :=
  { db with syncQueue := putByKey SyncQueueItem.id db.syncQueue item }

/-- `db.removeSyncItem`: `syncQueue.delete(id)`. -/
def DB.removeSyncItem (db : DB) (i : String) : DB :=
  { db with syncQueue := delByKey SyncQueueItem.id db.syncQueue i }

/-- `db.getAllSyncItems`: `syncQueue.toArray()`, enumerated in primary-key
(`id`) order — not in priority order. -/
def DB.getAllSyncItems (db : DB) : List SyncQueueItem :=
  sortBy (fun a b => strLe a.id b.id) db.syncQueue

/-- `db.getNextSyncItem`: `syncQueue.orderBy(priority).reverse().first()`.
Present in the storage layer but never called by the engine. -/
def DB.getNextSyncItem (db : DB) : Option SyncQueueItem :=
  (sortBy (fun a b => a.priority ≥ b.priority) db.syncQueue).head?

/-- `db.saveConflict`: `conflicts.put`, keyed by the local snapshot id. -/
def DB.saveConflict (db : DB) (c : ConflictDiagram) : DB :=
  { db with conflicts := putByKey (fun x => x.localDoc.id) db.conflicts c }

/-- `db.getConflict(diagramId)`. -/
def DB.getConflict (db : DB) (i : String) : Option ConflictDiagram :=
  getByKey (fun x => x.localDoc.id) db.conflicts i

/-- `db.resolveConflict(diagramId)`: `conflicts.delete`. -/
def DB.resolveConflict (db : DB) (i : String) : DB :=
  { db with conflicts := delByKey (fun x => x.localDoc.id) db.conflicts i }

/-- A row of the remote `diagrams` table (see the Supabase schema and the
columns written by `SupabaseProvider.uploadDiagram`). -/
structure CloudRow where
  id : String
  name : String
  data : String
  hash : String
  updated_at : Nat
  device_id : String
  size : Nat
deriving DecidableEq, Repr

/-- The remote store: the `diagrams` table. -/
structure Cloud where
  rows : List CloudRow
deriving DecidableEq, Repr

/-- `SupabaseProvider.uploadDiagram`: upsert on `id` of the columns
`{id, name, data, hash, device_id, updated_at := now}`; columns not in the
payload keep their old value on update (`size` defaults to 0 on insert). -/
def Cloud.upsert (c : Cloud) (now : Nat) (deviceId : String) (d : Diagram) : Cloud :=
  match getByKey CloudRow.id c.rows d.id with
  | Option.some _ =>
      { rows := updByKey CloudRow.id c.rows d.id (fun r =>
          { r with name := d.name, data := d.data, hash := d.hash
                   device_id := deviceId, updated_at := now }) }
  | Option.none =>
      { rows := c.rows ++ [{ id := d.id, name := d.name, data := d.data, hash := d.hash
                             updated_at := now, device_id := deviceId, size := 0 }] }

/-- `SupabaseProvider.downloadDiagram` row mapping: the returned `Diagram`
takes all three timestamps from `updated_at`. -/
def rowToDiagram (r : CloudRow) : Diagram :=
  { id := r.id
    name := r.name
    data := r.data
    hash := r.hash
    localTimestamp := r.updated_at
    cloudTimestamp := Option.some r.updated_at
    cloudId := Option.some r.id
    lastSynced := Option.some r.updated_at
    isSyncing := false
    conflictStatus := ConflictStatus.none
    deviceId := r.device_id
    size := r.size }

/-- `SupabaseProvider.downloadDiagram(id)`: `null` when the row is absent. -/
def Cloud.download (c : Cloud) (i : String) : Option Diagram :=
  (getByKey CloudRow.id c.rows i).map rowToDiagram

/-- `SupabaseProvider.listDiagrams`: all rows ordered by `updated_at`
descending (the metadata view carries the same fields as a download). -/
def Cloud.list (c : Cloud) : List Diagram :=
  (sortBy (fun a b => a.updated_at ≥ b.updated_at) c.rows).map rowToDiagram

/-- `SupabaseProvider.deleteDiagram(id)`. -/
def Cloud.delete (c : Cloud) (i : String) : Cloud :=
  { rows := delByKey CloudRow.id c.rows i }

/-- In-memory state of one `SyncEngine` instance together with the stores
it acts on. -/
structure EngineState where
  db : DB
  cloud : Cloud
  syncStatus : SyncStatus
  syncInProgress : Bool
deriving DecidableEq, Repr

/-- Externally visible calls made by an engine operation: cloud-provider
writes and content-script notifications. -/
inductive Event where
  | cloudUpload (d : Diagram)
  | cloudDelete (i : String)
  | notifyTabs (i : String)
deriving DecidableEq, Repr

/-- `SyncEngine.uploadDiagram` (success path): mark `isSyncing`, upload via
the provider, then update the local metadata with `lastSynced`, `cloudId`
and `cloudTimestamp` (all `Date.now()` reads modelled by `now`). -/
def uploadDiagram (now : Nat) (deviceId : String) (st : EngineState) (d : Diagram) :
    EngineState × List Event :=
  let st1 := { st with db := st.db.updateDiagramMetadata d.id (fun x => { x with isSyncing := true }) }
  let st2 := { st1 with cloud := st1.cloud.upsert now deviceId d }
  let st3 := { st2 with db := st2.db.updateDiagramMetadata d.id (fun x =>
      { x with isSyncing := false
               lastSynced := Option.some now
               cloudId := Option.some d.id
               cloudTimestamp := Option.some now }) }
  (st3, [Event.cloudUpload d])

/-- `SyncEngine.applyCloudDiagram`: save the cloud diagram locally and
notify open tabs. -/
def applyCloudDiagram (st : EngineState) (d : Diagram) : EngineState × List Event :=
  ({ st with db := st.db.saveDiagram d }, [Event.notifyTabs d.id])

/-- `SyncEngine.applyResolvedDiagram`: save the winning copy locally,
upload it to the cloud, and mark the diagram `conflictStatus = resolved`. -/
def applyResolvedDiagram (now : Nat) (deviceId : String) (st : EngineState) (d : Diagram) :
    EngineState × List Event :=
  let st1 := { st with db := st.db.saveDiagram d }
  let (st2, tr) := uploadDiagram now deviceId st1 d
  let st3 := { st2 with db := st2.db.updateDiagramMetadata d.id (fun x =>
      { x with conflictStatus := ConflictStatus.resolved }) }
  (st3, tr)

/-- `SyncEngine.syncDiagram`. `hashFn` stands for `calculateHash` (invoked
only when the incoming diagram's `hash` is falsy, i.e. the empty string);
`deviceId`/`settings` stand for `getDeviceId()`/`getSyncSettings()`. -/
def syncDiagram (hashFn : String → String) (deviceId : String) (now : Nat)
    (settings : SyncSettings) (st : EngineState) (diagram : Diagram) :
    EngineState × List Event :=
  let d0 := if diagram.hash = "" then { diagram with hash := hashFn diagram.data } else diagram
  let d := { d0 with deviceId := deviceId }
  match st.cloud.download d.id with
  | Option.some cloudDiagram =>
      let check := detectConflict now d cloudDiagram
      match (if check.hasConflict then check.conflict else Option.none) with
      | Option.some c =>
          let db1 := (st.db.saveConflict c).updateDiagramMetadata d.id
            (fun x => { x with conflictStatus := ConflictStatus.conflict })
          let st1 := { st with db := db1 }
          if settings.conflictResolution ≠ Strategy.manual then
            let resolved := resolveConflict c settings.conflictResolution
            let (st2, tr) := applyResolvedDiagram now deviceId st1 resolved
            ({ st2 with db := st2.db.resolveConflict d.id }, tr)
          else
            (st1, [])
      | Option.none =>
          if d.hash ≠ cloudDiagram.hash then
            if d.localTimestamp > jsOr0 cloudDiagram.cloudTimestamp then
              uploadDiagram now deviceId st d
            else
              applyCloudDiagram st cloudDiagram
          else
            (st, [])
  | Option.none => uploadDiagram now deviceId st d

/-- One step of the first `syncAll` loop body (over local diagrams):
upload local-only diagrams; for ids present on both sides with differing
hashes, download the full cloud copy, run the conflict detector, and only
when no conflict is reported upload or apply by timestamp. A detected
conflict leaves the pair untouched. -/
def syncAllLocalStep (deviceId : String) (now : Nat) (cloudList : List Diagram)
    (acc : EngineState × List Event) (dLocal : Diagram) : EngineState × List Event :=
  let (s, tr) := acc
  match getByKey Diagram.id cloudList dLocal.id with
  | Option.none =>
      let (s2, tr2) := uploadDiagram now deviceId s dLocal
      (s2, tr ++ tr2)
  | Option.some cloudMeta =>
      if dLocal.hash ≠ cloudMeta.hash then
        match s.cloud.download dLocal.id with
        | Option.some cloudFull =>
            let check := detectConflict now dLocal cloudFull
            if check.hasConflict then
              (s, tr)
            else if dLocal.localTimestamp > jsOr0 cloudMeta.cloudTimestamp then
              let (s2, tr2) := uploadDiagram now deviceId s dLocal
              (s2, tr ++ tr2)
            else
              let (s2, tr2) := applyCloudDiagram s cloudFull
              (s2, tr ++ tr2)
        | Option.none => (s, tr)
      else
        (s, tr)

/-- One step of the second `syncAll` loop body (over cloud metadata):
download and apply diagrams that exist only in the cloud. -/
def syncAllCloudStep (localList : List Diagram) (acc : EngineState × List Event)
    (cloudMeta : Diagram) : EngineState × List Event :=
  let (s, tr) := acc
  if (getByKey Diagram.id localList cloudMeta.id).isSome then
    (s, tr)
  else
    match s.cloud.download cloudMeta.id with
    | Option.some cloudFull =>
        let (s2, tr2) := applyCloudDiagram s cloudFull
        (s2, tr ++ tr2)
    | Option.none => (s, tr)

/-- `SyncEngine.syncAll`: guarded by `syncInProgress`; enumerates local
diagrams and cloud metadata and reconciles both directions. `bodyFails`
models an exception thrown inside the `try` block (placed at the remote
listing, the first provider call): the `catch` sets `syncStatus = error`
and the `finally` clears `syncInProgress`. -/
def syncAll (deviceId : String) (now : Nat) (bodyFails : Bool) (st : EngineState) :
    EngineState × List Event :=
  if st.syncInProgress then
    (st, [])
  else
    let st0 := { st with syncInProgress := true, syncStatus := SyncStatus.syncing }
    if bodyFails then
      ({ st0 with syncStatus := SyncStatus.error, syncInProgress := false }, [])
    else
      let localDiagrams := st0.db.getAllDiagrams
      let cloudMetadata := st0.cloud.list
      let (st1, tr1) := localDiagrams.foldl (syncAllLocalStep deviceId now cloudMetadata) (st0, [])
      let (st2, tr2) := cloudMetadata.foldl (syncAllCloudStep localDiagrams) (st1, tr1)
      ({ st2 with syncStatus := SyncStatus.synced, syncInProgress := false }, tr2)

/-- One step of `processSyncQueue` over the enumerated items. `opFails`
models the provider call for the given diagram id throwing: the `catch`
branch removes the item only when `retryCount >= settings.maxRetries` and
otherwise leaves the item untouched for the next run (a failed upload
still churns the `isSyncing` flag before rethrowing). -/
def processQueueStep (deviceId : String) (now : Nat) (settings : SyncSettings)
    (opFails : String → Bool) (acc : EngineState × List Event) (item : SyncQueueItem) :
    EngineState × List Event :=
  let (s, tr) := acc
  match s.db.getDiagram item.diagramId with
  | Option.none =>
      ({ s with db := s.db.removeSyncItem item.id }, tr)
  | Option.some diagram =>
      if opFails item.diagramId then
        let s1 :=
          match item.operation with
          | SyncOp.upload =>
              let dbChurn := ((s.db.updateDiagramMetadata diagram.id
                (fun x => { x with isSyncing := true })).updateDiagramMetadata diagram.id
                (fun x => { x with isSyncing := false }))
              { s with db := dbChurn }
          | _ => s
        if item.retryCount ≥ settings.maxRetries then
          ({ s1 with db := s1.db.removeSyncItem item.id }, tr)
        else
          (s1, tr)
      else
        let (s2, tr2) :=
          match item.operation with
          | SyncOp.upload => uploadDiagram now deviceId s diagram
          | SyncOp.download =>
              match s.cloud.download diagram.id with
              | Option.some cloudDiagram => applyCloudDiagram s cloudDiagram
              | Option.none => (s, [])
          | SyncOp.delete =>
              let s3 := { s with cloud := s.cloud.delete diagram.id, db := s.db.deleteDiagram diagram.id }
              (s3, [Event.cloudDelete diagram.id])
        ({ s2 with db := s2.db.removeSyncItem item.id }, tr ++ tr2)

/-- `SyncEngine.processSyncQueue`: enumerates the queue once via
`getAllSyncItems()` (primary-key order) and processes each item in that
order. -/
def processSyncQueue (deviceId : String) (now : Nat) (settings : SyncSettings)
    (opFails : String → Bool) (st : EngineState) : EngineState × List Event :=
  (st.db.getAllSyncItems).foldl (processQueueStep deviceId now settings opFails) (st, [])

/-- `SyncEngine.queueSync`: append a queue item with priority 10 for
`delete` and 5 otherwise (`uuid` models `crypto.randomUUID()`). -/
def queueSync (settings : SyncSettings) (uuid : String) (now : Nat)
    (st : EngineState) (diagramId : String) (operation : SyncOp) : EngineState :=
  let item : SyncQueueItem :=
    { id := uuid
      diagramId := diagramId
      operation := operation
      priority := if operation = SyncOp.delete then 10 else 5
      retryCount := 0
      maxRetries := settings.maxRetries
      addedAt := now
      error := Option.none }
  { st with db := st.db.addToSyncQueue item }

/-! Concrete fixtures used by witnesses and counterexamples. -/

/-- A local diagram fixture with the fields the sync core reads. -/
def mkDiag (i h : String) (lt : Nat) (ct : Option Nat) (ls : Option Nat) : Diagram :=
  { id := i
    name := "diagram"
    data := "payload"
    hash := h
    localTimestamp := lt
    cloudTimestamp := ct
    cloudId := Option.none
    lastSynced := ls
    isSyncing := false
    conflictStatus := ConflictStatus.none
    deviceId := "devA"
    size := 0 }

/-- A cloud row fixture. -/
def mkRow (i h : String) (ts : Nat) : CloudRow :=
  { id := i
    name := "diagram"
    data := "cloudpayload"
    hash := h
    updated_at := ts
    device_id := "devB"
    size := 0 }

/-- An identity stand-in for `calculateHash` in concrete runs (never
consulted when the inputs carry a non-empty hash). -/
def hashId (s : String) : String := s

/-- Settings selecting the `latest` auto-resolution strategy. -/
def settingsLatest : SyncSettings :=
  { DEFAULT_SYNC_SETTINGS with conflictResolution := Strategy.latest }

/-- A state holding one local diagram that conflicts with its cloud row
(local edited after its last sync, cloud strictly newer). -/
def sweepConflictState : EngineState :=
  { db := { diagrams := [mkDiag "x" "h1" 200 Option.none (Option.some 100)]
            syncQueue := []
            conflicts := [] }
    cloud := { rows := [mkRow "x" "h2" 300] }
    syncStatus := SyncStatus.idle
    syncInProgress := false }

/-- A state whose conflict (under `latest`) is won by the cloud side. -/
def latestCloudWinsState : EngineState :=
  { db := { diagrams := [mkDiag "x" "h1" 100 Option.none (Option.some 50)]
            syncQueue := []
            conflicts := [] }
    cloud := { rows := [mkRow "x" "h2" 300] }
    syncStatus := SyncStatus.idle
    syncInProgress := false }

/-- An `upload` queue entry whose UUID key sorts before `deleteItem`. -/
def uploadItem : SyncQueueItem :=
  { id := "a", diagramId := "d1", operation := SyncOp.upload, priority := 5
    retryCount := 0, maxRetries := 3, addedAt := 1, error := Option.none }

/-- A `delete` queue entry added after `uploadItem`. -/
def deleteItem : SyncQueueItem :=
  { id := "b", diagramId := "d2", operation := SyncOp.delete, priority := 10
    retryCount := 0, maxRetries := 3, addedAt := 2, error := Option.none }

/-- A state queueing `uploadItem` then `deleteItem` for two local diagrams. -/
def queueOrderState : EngineState :=
  { db := { diagrams := [mkDiag "d1" "h1" 10 Option.none Option.none,
                         mkDiag "d2" "h2" 10 Option.none Option.none]
            syncQueue := [uploadItem, deleteItem]
            conflicts := [] }
    cloud := { rows := [mkRow "d2" "h2" 5] }
    syncStatus := SyncStatus.idle
    syncInProgress := false }

/-- A state with a single queued upload whose provider call fails. -/
def retryState : EngineState :=
  { db := { diagrams := [mkDiag "d1" "h1" 10 Option.none Option.none]
            syncQueue := [uploadItem]
            conflicts := [] }
    cloud := { rows := [] }
    syncStatus := SyncStatus.idle
    syncInProgress := false }

/-- A state whose single local diagram already matches its cloud row. -/
def convergedState : EngineState :=
  { db := { diagrams := [mkDiag "x" "h1" 100 Option.none Option.none]
            syncQueue := []
            conflicts := [] }
    cloud := { rows := [mkRow "x" "h1" 50] }
    syncStatus := SyncStatus.idle
    syncInProgress := false }

/-- A state holding a never-synced local diagram whose cloud row is newer
and different. -/
def neverSyncedState : EngineState :=
  { db := { diagrams := [mkDiag "x" "h1" 100 Option.none Option.none]
            syncQueue := []
            conflicts := [] }
    cloud := { rows := [mkRow "x" "h2" 300] }
    syncStatus := SyncStatus.idle
    syncInProgress := false }

/-- Scenario C of the spec: local synced at its last edit (no unsynced
edits), cloud strictly newer with a different hash. -/
def scenarioCState : EngineState :=
  { db := { diagrams := [mkDiag "x" "h1" 100 Option.none (Option.some 100)]
            syncQueue := []
            conflicts := [] }
    cloud := { rows := [mkRow "x" "h2" 300] }
    syncStatus := SyncStatus.idle
    syncInProgress := false }

/-- An empty engine state (no documents anywhere). -/
def emptyState : EngineState :=
  { db := { diagrams := [], syncQueue := [], conflicts := [] }
    cloud := { rows := [] }
    syncStatus := SyncStatus.idle
    syncInProgress := false }

/-- `emptyState` with a sweep already marked in flight. -/
def busyState : EngineState :=
  { emptyState with syncInProgress := true }

/-!
Theorems. Container lemmas about the Dexie-style store operations come
first, then branch characterizations of the detector and engine, then the
claim theorems with their witnesses and counterexamples.
-/

theorem getByKey_putByKey_self {α : Type} (key : α → String) (xs : List α) (x : α) :
    getByKey key (putByKey key xs x) (key x) = Option.some x := by
  induction xs with
  | nil => simp [putByKey, getByKey]
  | cons y ys ih =>
      by_cases h : key y = key x
      · simp [putByKey, getByKey, h]
      · simp [putByKey, getByKey, h, ih]

theorem getByKey_updByKey {α : Type} (key : α → String) (xs : List α) (i : String)
    (f : α → α) (hf : ∀ y, key (f y) = key y) (a : α)
    (ha : getByKey key xs i = Option.some a) :
    getByKey key (updByKey key xs i f) i = Option.some (f a) := by
  induction xs with
  | nil => simp [getByKey] at ha
  | cons y ys ih =>
      by_cases h : key y = i
      · simp only [getByKey, h, if_pos rfl] at ha
        cases ha
        simp [updByKey, getByKey, h, hf]
      · simp only [getByKey, h, ite_false] at ha
        simp [updByKey, getByKey, h, ih ha]

theorem getByKey_delByKey_self {α : Type} (key : α → String) (xs : List α) (i : String) :
    getByKey key (delByKey key xs i) i = Option.none := by
  induction xs with
  | nil => simp [delByKey, getByKey]
  | cons y ys ih =>
      by_cases h : key y = i
      · simp [delByKey, h, ih]
      · simp [delByKey, getByKey, h, ih]

theorem getByKey_key_eq {α : Type} (key : α → String) (xs : List α) (i : String) (a : α)
    (ha : getByKey key xs i = Option.some a) : key a = i := by
  induction xs with
  | nil => simp [getByKey] at ha
  | cons y ys ih =>
      by_cases h : key y = i
      · simp only [getByKey, h, if_pos rfl] at ha
        cases ha
        exact h
      · simp only [getByKey, h, ite_false] at ha
        exact ih ha

theorem lastSyncedAndStale_iff (d : Diagram) :
    lastSyncedAndStale d = true ↔
      ∃ t, d.lastSynced = Option.some t ∧ t ≠ 0 ∧ d.localTimestamp > t := by
  unfold lastSyncedAndStale
  cases hls : d.lastSynced <;> simp

theorem detectConflict_hasConflict_iff (now : Nat) (l c : Diagram) :
    (detectConflict now l c).hasConflict = true ↔
      l.hash ≠ c.hash ∧
        (l.localTimestamp > jsOr0 c.cloudTimestamp ∨
          (jsOr0 c.cloudTimestamp > l.localTimestamp ∧ lastSyncedAndStale l = true)) := by
  unfold detectConflict
  by_cases h1 : l.hash = c.hash
  · simp [compareHashes, h1]
  · have hch : compareHashes l.hash c.hash = false := by simp [compareHashes, h1]
    by_cases h2 : l.localTimestamp > jsOr0 c.cloudTimestamp
    · simp [hch, h1, h2]
    · by_cases h3 : jsOr0 c.cloudTimestamp > l.localTimestamp
      · by_cases h4 : lastSyncedAndStale l = true <;> simp [hch, h1, h2, h3, h4]
      · simp [hch, h1, h2, h3]

theorem detectConflict_conflict_of_hasConflict (now : Nat) (l c : Diagram)
    (h : (detectConflict now l c).hasConflict = true) :
    (detectConflict now l c).conflict =
      Option.some { localDoc := l, cloudDoc := c, detectedAt := now } := by
  unfold detectConflict at h ⊢
  by_cases h1 : compareHashes l.hash c.hash
  · simp [h1] at h
  · by_cases h2 : l.localTimestamp > jsOr0 c.cloudTimestamp
    · simp [h1, h2]
    · by_cases h3 : jsOr0 c.cloudTimestamp > l.localTimestamp
      · by_cases h4 : lastSyncedAndStale l
        · simp [h1, h2, h3, h4]
        · simp [h1, h2, h3, h4] at h
      · simp [h1, h2, h3] at h

/-- C2: `detectConflict` ignores timestamps when hashes agree, and when
hashes differ with the local side strictly newer than the cloud timestamp
(`|| 0` on a missing value) it returns a conflict pairing the two
snapshots. -/
theorem detectConflict_equal_hash_or_local_newer (now : Nat) (l c : Diagram) :
    (l.hash = c.hash → (detectConflict now l c).hasConflict = false) ∧
    (l.hash ≠ c.hash → l.localTimestamp > jsOr0 c.cloudTimestamp →
      detectConflict now l c =
        { hasConflict := true
          reason := Option.some "Both local and cloud versions have been modified"
          conflict := Option.some { localDoc := l, cloudDoc := c, detectedAt := now } }) := by
  constructor
  · intro h
    unfold detectConflict
    simp [compareHashes, h]
  · intro hne hgt
    have hch : compareHashes l.hash c.hash = false := by
      simp [compareHashes, hne]
    unfold detectConflict
    simp [hch, hgt]

theorem detectConflict_equal_hash_or_local_newer_witness :
    ((detectConflict 7 (mkDiag "x" "h1" 100 Option.none Option.none)
        (mkDiag "x" "h1" 0 (Option.some 50) Option.none)).hasConflict = false) ∧
    (detectConflict 7 (mkDiag "y" "h1" 200 Option.none (Option.some 150))
        (mkDiag "y" "h2" 0 (Option.some 180) Option.none) =
      { hasConflict := true
        reason := Option.some "Both local and cloud versions have been modified"
        conflict := Option.some
          { localDoc := mkDiag "y" "h1" 200 Option.none (Option.some 150)
            cloudDoc := mkDiag "y" "h2" 0 (Option.some 180) Option.none
            detectedAt := 7 } }) :=
  ⟨(detectConflict_equal_hash_or_local_newer 7 _ _).1 rfl,
   (detectConflict_equal_hash_or_local_newer 7 _ _).2 (by decide) (by decide)⟩

/-- C8 counterexample: hashes differ, the cloud timestamp (10) is strictly
greater than the local timestamp (5), and the local document has
`localTimestamp > lastSynced` (5 > 0) — the claim requires a conflict —
yet `detectConflict` reports none, because a zero `lastSynced` is falsy in
the guard `local.lastSynced && ...`. -/
theorem detectConflict_zero_lastSynced_counterexample :
    (mkDiag "x" "h1" 5 Option.none (Option.some 0)).hash ≠
      (mkDiag "x" "h2" 0 (Option.some 10) Option.none).hash ∧
    (mkDiag "x" "h2" 0 (Option.some 10) Option.none).cloudTimestamp = Option.some 10 ∧
    10 > (mkDiag "x" "h1" 5 Option.none (Option.some 0)).localTimestamp ∧
    (mkDiag "x" "h1" 5 Option.none (Option.some 0)).lastSynced = Option.some 0 ∧
    (mkDiag "x" "h1" 5 Option.none (Option.some 0)).localTimestamp > 0 ∧
    (detectConflict 77 (mkDiag "x" "h1" 5 Option.none (Option.some 0))
      (mkDiag "x" "h2" 0 (Option.some 10) Option.none)).hasConflict = false := by
  decide

/-- C8 (amended): with differing hashes and the cloud timestamp strictly
newer, `detectConflict` reports a conflict exactly when `lastSynced` is
present, nonzero, and strictly less than `localTimestamp` (JS truthiness
makes a zero `lastSynced` behave like an absent one); with no such
unsynced local edits there is no conflict and `syncDiagram` applies the
remote document locally (saving it over the local copy and notifying
consumers). -/
theorem detectConflict_remote_newer_iff_stale
    (hashFn : String → String) (dev : String) (now : Nat) (settings : SyncSettings)
    (st : EngineState) (l : Diagram) (row : CloudRow)
    (hhash : l.hash ≠ "")
    (hrow : getByKey CloudRow.id st.cloud.rows l.id = Option.some row)
    (hne : l.hash ≠ row.hash)
    (hgt : row.updated_at > l.localTimestamp) :
    ((detectConflict now l (rowToDiagram row)).hasConflict = true ↔
      ∃ t, l.lastSynced = Option.some t ∧ t ≠ 0 ∧ l.localTimestamp > t) ∧
    ((¬ ∃ t, l.lastSynced = Option.some t ∧ t ≠ 0 ∧ l.localTimestamp > t) →
      (syncDiagram hashFn dev now settings st l).fst.db.getDiagram l.id =
        Option.some (rowToDiagram row) ∧
      (syncDiagram hashFn dev now settings st l).snd = [Event.notifyTabs row.id]) := by
  have hid : row.id = l.id := getByKey_key_eq CloudRow.id st.cloud.rows l.id row hrow
  constructor
  · rw [detectConflict_hasConflict_iff, ← lastSyncedAndStale_iff]
    simp only [rowToDiagram, jsOr0]
    have hle : ¬ (l.localTimestamp > row.updated_at) := by omega
    simp [hne, hle, hgt]
  · intro hno
    have hncd : (detectConflict now { l with deviceId := dev }
        (rowToDiagram row)).hasConflict = false := by
      rw [← Bool.not_eq_true, detectConflict_hasConflict_iff]
      rintro ⟨-, h2 | ⟨-, h4⟩⟩
      · simp only [rowToDiagram, jsOr0] at h2
        omega
      · rw [lastSyncedAndStale_iff] at h4
        obtain ⟨t, ht, hnz, hlt⟩ := h4
        exact hno ⟨t, ht, hnz, hlt⟩
    unfold syncDiagram
    simp only [Cloud.download, hrow, Option.map_some', hhash, ite_false, hncd,
      Bool.false_eq_true, if_false]
    split_ifs with h1 h2
    · exfalso
      have h2b : l.localTimestamp > row.updated_at := by
        simpa [rowToDiagram, jsOr0] using h2
      omega
    · simp only [applyCloudDiagram, DB.saveDiagram, DB.getDiagram]
      have h5 := getByKey_putByKey_self Diagram.id st.db.diagrams (rowToDiagram row)
      rw [show (rowToDiagram row).id = l.id from hid] at h5
      refine ⟨h5, ?_⟩
      show [Event.notifyTabs (rowToDiagram row).id] = [Event.notifyTabs row.id]
      rfl
    · exact absurd (not_not.mp h1) hne

/-- C1: when the cloud copy exists, the detector reports a conflict, and
the configured strategy is `manual`, `syncDiagram` persists the
`ConflictRecord`, marks the stored document `conflictStatus = conflict`,
and performs no write in either direction: no provider call is made, the
remote store is untouched, and the stored document changes only in its
`conflictStatus` field (payload, hash and timestamps intact). -/
theorem syncDiagram_manual_conflict_frame
    (hashFn : String → String) (dev : String) (now : Nat) (settings : SyncSettings)
    (st : EngineState) (diagram : Diagram) (row : CloudRow) (stored : Diagram)
    (hmanual : settings.conflictResolution = Strategy.manual)
    (hhash : diagram.hash ≠ "")
    (hrow : getByKey CloudRow.id st.cloud.rows diagram.id = Option.some row)
    (hstored : st.db.getDiagram diagram.id = Option.some stored)
    (hconf : (detectConflict now { diagram with deviceId := dev }
        (rowToDiagram row)).hasConflict = true) :
    (syncDiagram hashFn dev now settings st diagram).snd = [] ∧
    (syncDiagram hashFn dev now settings st diagram).fst.cloud = st.cloud ∧
    (syncDiagram hashFn dev now settings st diagram).fst.db.syncQueue = st.db.syncQueue ∧
    (syncDiagram hashFn dev now settings st diagram).fst.db.getConflict diagram.id =
      Option.some { localDoc := { diagram with deviceId := dev }
                    cloudDoc := rowToDiagram row
                    detectedAt := now } ∧
    (syncDiagram hashFn dev now settings st diagram).fst.db.getDiagram diagram.id =
      Option.some { stored with conflictStatus := ConflictStatus.conflict } := by
  have hc2 := detectConflict_conflict_of_hasConflict now
    { diagram with deviceId := dev } (rowToDiagram row) hconf
  unfold syncDiagram
  simp only [Cloud.download, hrow, Option.map_some', hhash, ite_false, hconf, hc2,
    hmanual, ne_eq, ite_true, not_true, if_false]
  refine ⟨trivial, trivial, rfl, ?_, ?_⟩
  · simpa [DB.getConflict, DB.saveConflict, DB.updateDiagramMetadata] using
      getByKey_putByKey_self (fun x => x.localDoc.id) st.db.conflicts
        { localDoc := { diagram with deviceId := dev }
          cloudDoc := rowToDiagram row
          detectedAt := now }
  · simpa [DB.getDiagram, DB.saveConflict, DB.updateDiagramMetadata] using
      getByKey_updByKey Diagram.id st.db.diagrams diagram.id
        (fun x => { x with conflictStatus := ConflictStatus.conflict })
        (fun y => rfl) stored hstored

theorem syncDiagram_manual_conflict_frame_witness :
    (syncDiagram hashId "devA" 999 DEFAULT_SYNC_SETTINGS sweepConflictState
      (mkDiag "x" "h1" 200 Option.none (Option.some 100))).snd = [] ∧
    (syncDiagram hashId "devA" 999 DEFAULT_SYNC_SETTINGS sweepConflictState
      (mkDiag "x" "h1" 200 Option.none (Option.some 100))).fst.cloud = sweepConflictState.cloud ∧
    (syncDiagram hashId "devA" 999 DEFAULT_SYNC_SETTINGS sweepConflictState
      (mkDiag "x" "h1" 200 Option.none (Option.some 100))).fst.db.syncQueue =
        sweepConflictState.db.syncQueue ∧
    (syncDiagram hashId "devA" 999 DEFAULT_SYNC_SETTINGS sweepConflictState
      (mkDiag "x" "h1" 200 Option.none (Option.some 100))).fst.db.getConflict "x" =
      Option.some { localDoc := { mkDiag "x" "h1" 200 Option.none (Option.some 100) with deviceId := "devA" }
                    cloudDoc := rowToDiagram (mkRow "x" "h2" 300)
                    detectedAt := 999 } ∧
    (syncDiagram hashId "devA" 999 DEFAULT_SYNC_SETTINGS sweepConflictState
      (mkDiag "x" "h1" 200 Option.none (Option.some 100))).fst.db.getDiagram "x" =
      Option.some { mkDiag "x" "h1" 200 Option.none (Option.some 100) with
                    conflictStatus := ConflictStatus.conflict } :=
  syncDiagram_manual_conflict_frame hashId "devA" 999 DEFAULT_SYNC_SETTINGS
    sweepConflictState (mkDiag "x" "h1" 200 Option.none (Option.some 100))
    (mkRow "x" "h2" 300) (mkDiag "x" "h1" 200 Option.none (Option.some 100))
    rfl (by decide) rfl rfl (by decide)

theorem detectConflict_remote_newer_iff_stale_witness :
    ((detectConflict 5 (mkDiag "x" "h1" 100 Option.none (Option.some 100))
        (rowToDiagram (mkRow "x" "h2" 300))).hasConflict = true ↔
      ∃ t, (mkDiag "x" "h1" 100 Option.none (Option.some 100)).lastSynced = Option.some t ∧
        t ≠ 0 ∧ (mkDiag "x" "h1" 100 Option.none (Option.some 100)).localTimestamp > t) ∧
    ((syncDiagram hashId "devA" 5 DEFAULT_SYNC_SETTINGS scenarioCState
        (mkDiag "x" "h1" 100 Option.none (Option.some 100))).fst.db.getDiagram "x" =
      Option.some (rowToDiagram (mkRow "x" "h2" 300)) ∧
    (syncDiagram hashId "devA" 5 DEFAULT_SYNC_SETTINGS scenarioCState
        (mkDiag "x" "h1" 100 Option.none (Option.some 100))).snd =
      [Event.notifyTabs "x"]) :=
  ⟨(detectConflict_remote_newer_iff_stale hashId "devA" 5 DEFAULT_SYNC_SETTINGS
      scenarioCState (mkDiag "x" "h1" 100 Option.none (Option.some 100)) (mkRow "x" "h2" 300)
      (by decide) rfl (by decide) (by decide)).1,
   (detectConflict_remote_newer_iff_stale hashId "devA" 5 DEFAULT_SYNC_SETTINGS
      scenarioCState (mkDiag "x" "h1" 100 Option.none (Option.some 100)) (mkRow "x" "h2" 300)
      (by decide) rfl (by decide) (by decide)).2
    (by rintro ⟨t, ht, hnz, hlt⟩; simp [mkDiag] at ht hlt; omega)⟩

/-- C7: when the detector reports no conflict for a stored local document
and its cloud row, `syncDiagram` leaves local and remote content hashes
equal for that id; if the hashes were already equal, the state is
untouched and no provider call or notification happens. -/
theorem syncDiagram_no_conflict_convergence
    (hashFn : String → String) (dev : String) (now : Nat) (settings : SyncSettings)
    (st : EngineState) (d : Diagram) (row : CloudRow)
    (hhash : d.hash ≠ "")
    (hrow : getByKey CloudRow.id st.cloud.rows d.id = Option.some row)
    (hstored : st.db.getDiagram d.id = Option.some d)
    (hnc : (detectConflict now { d with deviceId := dev }
        (rowToDiagram row)).hasConflict = false) :
    (((syncDiagram hashFn dev now settings st d).fst.db.getDiagram d.id).map Diagram.hash =
      ((getByKey CloudRow.id (syncDiagram hashFn dev now settings st d).fst.cloud.rows
          d.id).map CloudRow.hash)) ∧
    (d.hash = row.hash →
      (syncDiagram hashFn dev now settings st d).fst = st ∧
      (syncDiagram hashFn dev now settings st d).snd = []) := by
  have hid : row.id = d.id := getByKey_key_eq CloudRow.id st.cloud.rows d.id row hrow
  have hstored2 : getByKey Diagram.id st.db.diagrams d.id = Option.some d := hstored
  unfold syncDiagram
  simp only [Cloud.download, hrow, Option.map_some', hhash, ite_false, hnc,
    Bool.false_eq_true, if_false]
  constructor
  · split_ifs with h1 h2
    · have hA := getByKey_updByKey Diagram.id st.db.diagrams d.id
        (fun x => { x with isSyncing := true }) (fun y => rfl) d hstored2
      have hB := getByKey_updByKey Diagram.id (updByKey Diagram.id st.db.diagrams d.id (fun x => { x with isSyncing := true })) d.id (fun x => { x with isSyncing := false, lastSynced := Option.some now, cloudId := Option.some d.id, cloudTimestamp := Option.some now }) (fun y => rfl) _ hA
      have hC := getByKey_updByKey CloudRow.id st.cloud.rows d.id (fun r => { r with name := d.name, data := d.data, hash := d.hash, updated_at := now, device_id := dev }) (fun y => rfl) row hrow
      simp only [uploadDiagram, Cloud.upsert, DB.updateDiagramMetadata, DB.getDiagram, hrow]
      rw [hB, hC]
      simp
    · simp only [applyCloudDiagram, DB.saveDiagram, DB.getDiagram]
      have h5 := getByKey_putByKey_self Diagram.id st.db.diagrams (rowToDiagram row)
      rw [show (rowToDiagram row).id = d.id from hid] at h5
      rw [h5, hrow]
      simp [rowToDiagram]
    · have heq : d.hash = row.hash := by
        simpa [rowToDiagram] using h1
      simp [DB.getDiagram, hstored2, hrow, heq]
  · intro heq
    split_ifs with h1 h2
    · exact absurd heq h1
    · exact absurd heq h1
    · exact ⟨rfl, rfl⟩

theorem syncDiagram_no_conflict_convergence_witness :
    (((syncDiagram hashId "devA" 11 DEFAULT_SYNC_SETTINGS convergedState
        (mkDiag "x" "h1" 100 Option.none Option.none)).fst.db.getDiagram "x").map Diagram.hash =
      (getByKey CloudRow.id (syncDiagram hashId "devA" 11 DEFAULT_SYNC_SETTINGS convergedState
          (mkDiag "x" "h1" 100 Option.none Option.none)).fst.cloud.rows
          "x").map CloudRow.hash) ∧
    ((mkDiag "x" "h1" 100 Option.none Option.none).hash = (mkRow "x" "h1" 50).hash →
      (syncDiagram hashId "devA" 11 DEFAULT_SYNC_SETTINGS convergedState
        (mkDiag "x" "h1" 100 Option.none Option.none)).fst = convergedState ∧
      (syncDiagram hashId "devA" 11 DEFAULT_SYNC_SETTINGS convergedState
        (mkDiag "x" "h1" 100 Option.none Option.none)).snd = []) :=
  syncDiagram_no_conflict_convergence hashId "devA" 11 DEFAULT_SYNC_SETTINGS
    convergedState (mkDiag "x" "h1" 100 Option.none Option.none) (mkRow "x" "h1" 50)
    (by decide) rfl rfl (by decide)

/-- C10: a never-synced local document (`lastSynced` absent) with a
strictly newer, different cloud row yields no conflict, and `syncDiagram`
applies the cloud version over it (saving it locally and notifying
consumers). -/
theorem syncDiagram_neverSynced_applies_cloud
    (hashFn : String → String) (dev : String) (now : Nat) (settings : SyncSettings)
    (st : EngineState) (d : Diagram) (row : CloudRow)
    (hhash : d.hash ≠ "")
    (hrow : getByKey CloudRow.id st.cloud.rows d.id = Option.some row)
    (hne : d.hash ≠ row.hash)
    (hgt : row.updated_at > d.localTimestamp)
    (hls : d.lastSynced = Option.none) :
    (detectConflict now { d with deviceId := dev } (rowToDiagram row)).hasConflict = false ∧
    (syncDiagram hashFn dev now settings st d).fst.db.getDiagram d.id =
      Option.some (rowToDiagram row) ∧
    (syncDiagram hashFn dev now settings st d).snd = [Event.notifyTabs row.id] := by
  have hid : row.id = d.id := getByKey_key_eq CloudRow.id st.cloud.rows d.id row hrow
  have hnc : (detectConflict now { d with deviceId := dev }
      (rowToDiagram row)).hasConflict = false := by
    rw [← Bool.not_eq_true, detectConflict_hasConflict_iff]
    rintro ⟨-, h2 | ⟨-, h4⟩⟩
    · simp only [rowToDiagram, jsOr0] at h2
      omega
    · rw [lastSyncedAndStale_iff] at h4
      obtain ⟨t, ht, -, -⟩ := h4
      simp [hls] at ht
  refine ⟨hnc, ?_⟩
  unfold syncDiagram
  simp only [Cloud.download, hrow, Option.map_some', hhash, ite_false, hnc,
    Bool.false_eq_true, if_false]
  split_ifs with h1 h2
  · exfalso
    have h2b : d.localTimestamp > row.updated_at := by
      simpa [rowToDiagram, jsOr0] using h2
    omega
  · simp only [applyCloudDiagram, DB.saveDiagram, DB.getDiagram]
    have h5 := getByKey_putByKey_self Diagram.id st.db.diagrams (rowToDiagram row)
    rw [show (rowToDiagram row).id = d.id from hid] at h5
    refine ⟨h5, ?_⟩
    show [Event.notifyTabs (rowToDiagram row).id] = [Event.notifyTabs row.id]
    rfl
  · exact absurd (not_not.mp h1) hne

theorem syncDiagram_neverSynced_applies_cloud_witness :
    (detectConflict 12 { mkDiag "x" "h1" 100 Option.none Option.none with deviceId := "devA" }
      (rowToDiagram (mkRow "x" "h2" 300))).hasConflict = false ∧
    (syncDiagram hashId "devA" 12 DEFAULT_SYNC_SETTINGS neverSyncedState
      (mkDiag "x" "h1" 100 Option.none Option.none)).fst.db.getDiagram "x" =
      Option.some (rowToDiagram (mkRow "x" "h2" 300)) ∧
    (syncDiagram hashId "devA" 12 DEFAULT_SYNC_SETTINGS neverSyncedState
      (mkDiag "x" "h1" 100 Option.none Option.none)).snd = [Event.notifyTabs "x"] :=
  syncDiagram_neverSynced_applies_cloud hashId "devA" 12 DEFAULT_SYNC_SETTINGS
    neverSyncedState (mkDiag "x" "h1" 100 Option.none Option.none) (mkRow "x" "h2" 300)
    (by decide) rfl (by decide) (by decide) rfl

/-- C5 counterexample: under strategy `latest` with a conflict won by the
cloud side (cloud timestamp 300 beats local 100), `syncDiagram` still
issues a provider upload — of the winning cloud copy — so uploading is not
equivalent to the local side having won. -/
theorem syncDiagram_auto_resolve_counterexample :
    resolveConflict
        { localDoc := { mkDiag "x" "h1" 100 Option.none (Option.some 50) with deviceId := "devA" }
          cloudDoc := rowToDiagram (mkRow "x" "h2" 300)
          detectedAt := 999 } Strategy.latest = rowToDiagram (mkRow "x" "h2" 300) ∧
    rowToDiagram (mkRow "x" "h2" 300) ≠
      { mkDiag "x" "h1" 100 Option.none (Option.some 50) with deviceId := "devA" } ∧
    (syncDiagram hashId "devA" 999 settingsLatest latestCloudWinsState
      (mkDiag "x" "h1" 100 Option.none (Option.some 50))).snd =
      [Event.cloudUpload (rowToDiagram (mkRow "x" "h2" 300))] := by
  decide

/-- C5 (amended): when a conflict is detected and the strategy is not
`manual`, `syncDiagram` resolves it with that strategy (`latest` picks the
side with the greater effective timestamp), applies the winning copy
locally, uploads the winning copy to the remote store unconditionally —
regardless of which side won — and clears the persisted conflict record. -/
theorem syncDiagram_auto_resolve_uploads_winner
    (hashFn : String → String) (dev : String) (now : Nat) (settings : SyncSettings)
    (st : EngineState) (diagram : Diagram) (row : CloudRow) (w : Diagram)
    (hauto : settings.conflictResolution ≠ Strategy.manual)
    (hhash : diagram.hash ≠ "")
    (hrow : getByKey CloudRow.id st.cloud.rows diagram.id = Option.some row)
    (hconf : (detectConflict now { diagram with deviceId := dev }
        (rowToDiagram row)).hasConflict = true)
    (hw : w = resolveConflict
        { localDoc := { diagram with deviceId := dev }
          cloudDoc := rowToDiagram row
          detectedAt := now } settings.conflictResolution) :
    (syncDiagram hashFn dev now settings st diagram).snd = [Event.cloudUpload w] ∧
    (syncDiagram hashFn dev now settings st diagram).fst.db.getConflict diagram.id =
      Option.none ∧
    (getByKey CloudRow.id (syncDiagram hashFn dev now settings st diagram).fst.cloud.rows
        diagram.id).map CloudRow.hash = Option.some w.hash ∧
    (syncDiagram hashFn dev now settings st diagram).fst.db.getDiagram diagram.id =
      Option.some { w with isSyncing := false, lastSynced := Option.some now, cloudId := Option.some diagram.id, cloudTimestamp := Option.some now, conflictStatus := ConflictStatus.resolved } := by
  have hid : row.id = diagram.id := getByKey_key_eq CloudRow.id st.cloud.rows diagram.id row hrow
  have hc2 := detectConflict_conflict_of_hasConflict now
    { diagram with deviceId := dev } (rowToDiagram row) hconf
  have hwcases : w = ({ diagram with deviceId := dev } : Diagram) ∨ w = rowToDiagram row := by
    rw [hw]
    unfold resolveConflict
    cases hs : settings.conflictResolution
    · exact Or.inl rfl
    · dsimp only
      split_ifs
      · exact Or.inl rfl
      · exact Or.inr rfl
    · exact Or.inl rfl
    · exact Or.inr rfl
  have hwid : w.id = diagram.id := by
    rcases hwcases with h | h <;> subst h
    · rfl
    · exact hid
  unfold syncDiagram
  simp only [Cloud.download, hrow, Option.map_some', hhash, ite_false, hconf, hc2,
    ite_true, if_pos hauto, ← hw]
  simp only [applyResolvedDiagram, uploadDiagram, DB.saveDiagram, DB.updateDiagramMetadata,
    DB.resolveConflict, DB.saveConflict, DB.getConflict, DB.getDiagram, Cloud.upsert]
  rw [hwid]
  refine ⟨by trivial, getByKey_delByKey_self _ _ _, ?_, ?_⟩
  · simp only [hrow]
    rw [getByKey_updByKey CloudRow.id st.cloud.rows diagram.id (fun r => { r with name := w.name, data := w.data, hash := w.hash, updated_at := now, device_id := dev }) (fun y => rfl) row hrow]
    rfl
  · have hput := getByKey_putByKey_self Diagram.id
      (updByKey Diagram.id st.db.diagrams diagram.id
        (fun x => { x with conflictStatus := ConflictStatus.conflict })) w
    rw [hwid] at hput
    have h1 := getByKey_updByKey Diagram.id _ diagram.id
      (fun x => { x with isSyncing := true }) (fun y => rfl) w hput
    have h2 := getByKey_updByKey Diagram.id _ diagram.id (fun x => { x with isSyncing := false, lastSynced := Option.some now, cloudId := Option.some diagram.id, cloudTimestamp := Option.some now }) (fun y => rfl) _ h1
    have h3 := getByKey_updByKey Diagram.id _ diagram.id
      (fun x => { x with conflictStatus := ConflictStatus.resolved }) (fun y => rfl) _ h2
    rw [h3]
    simp [hwid]

theorem syncDiagram_auto_resolve_uploads_winner_witness :
    (syncDiagram hashId "devA" 999 settingsLatest latestCloudWinsState
      (mkDiag "x" "h1" 100 Option.none (Option.some 50))).snd =
      [Event.cloudUpload (rowToDiagram (mkRow "x" "h2" 300))] ∧
    (syncDiagram hashId "devA" 999 settingsLatest latestCloudWinsState
      (mkDiag "x" "h1" 100 Option.none (Option.some 50))).fst.db.getConflict "x" =
      Option.none ∧
    (getByKey CloudRow.id (syncDiagram hashId "devA" 999 settingsLatest latestCloudWinsState
        (mkDiag "x" "h1" 100 Option.none (Option.some 50))).fst.cloud.rows
        "x").map CloudRow.hash = Option.some (rowToDiagram (mkRow "x" "h2" 300)).hash ∧
    (syncDiagram hashId "devA" 999 settingsLatest latestCloudWinsState
      (mkDiag "x" "h1" 100 Option.none (Option.some 50))).fst.db.getDiagram "x" =
      Option.some { rowToDiagram (mkRow "x" "h2" 300) with isSyncing := false, lastSynced := Option.some 999, cloudId := Option.some "x", cloudTimestamp := Option.some 999, conflictStatus := ConflictStatus.resolved } :=
  syncDiagram_auto_resolve_uploads_winner hashId "devA" 999 settingsLatest
    latestCloudWinsState (mkDiag "x" "h1" 100 Option.none (Option.some 50))
    (mkRow "x" "h2" 300) (rowToDiagram (mkRow "x" "h2" 300))
    (by decide) (by decide) rfl (by decide) (by decide)

/-- C3: evidence of the code bug. A queued upload whose provider call
fails is left untouched: `retryCount` stays 0 (never incremented, despite
the comment in the `catch` block), so with `maxRetries = 3` the item is
never dropped — a second failing run leaves the queue identical. This
contradicts the claim that each failure increments `retryCount` and that
an exhausted item disappears from `listAll`. -/
theorem processSyncQueue_never_increments_retry :
    uploadItem.retryCount = 0 ∧
    DEFAULT_SYNC_SETTINGS.maxRetries = 3 ∧
    (processSyncQueue "devA" 50 DEFAULT_SYNC_SETTINGS (fun _ => true)
      retryState).fst.db.syncQueue = [uploadItem] ∧
    (processSyncQueue "devA" 50 DEFAULT_SYNC_SETTINGS (fun _ => true)
      (processSyncQueue "devA" 50 DEFAULT_SYNC_SETTINGS (fun _ => true)
        retryState).fst).fst.db.syncQueue = [uploadItem] := by
  decide

/-- C4: evidence of the code bug. `processSyncQueue` iterates
`getAllSyncItems()` — primary-key (UUID) order — and never consults
`priority` (the priority-ordered `getNextSyncItem` is dead code). With an
`upload` item keyed "a" added before a `delete` item keyed "b", the upload
(priority 5) is executed before the delete (priority 10), contradicting
the claimed delete-first priority order. -/
theorem processSyncQueue_ignores_priority :
    uploadItem.priority = 5 ∧
    deleteItem.priority = 10 ∧
    uploadItem.addedAt < deleteItem.addedAt ∧
    (processSyncQueue "devA" 50 DEFAULT_SYNC_SETTINGS (fun _ => false) queueOrderState).snd =
      [Event.cloudUpload (mkDiag "d1" "h1" 10 Option.none Option.none),
       Event.cloudDelete "d2"] := by
  decide

/-- C6: evidence of the code bug. During `syncAll`, a pair with differing
hashes for which the detector reports a conflict is silently skipped: the
sweep completes with status `synced`, but no `ConflictRecord` is persisted,
the document keeps `conflictStatus = none`, and no call of any kind is
made — the conflict is discarded, contradicting the claim that the
`syncDocument` conflict handling (persist and mark) runs. -/
theorem syncAll_discards_detected_conflict :
    (detectConflict 999 (mkDiag "x" "h1" 200 Option.none (Option.some 100))
      (rowToDiagram (mkRow "x" "h2" 300))).hasConflict = true ∧
    (syncAll "devA" 999 false sweepConflictState).fst.db.conflicts = [] ∧
    (syncAll "devA" 999 false sweepConflictState).fst.db.getDiagram "x" =
      Option.some (mkDiag "x" "h1" 200 Option.none (Option.some 100)) ∧
    (mkDiag "x" "h1" 200 Option.none (Option.some 100)).conflictStatus =
      ConflictStatus.none ∧
    (syncAll "devA" 999 false sweepConflictState).snd = [] ∧
    (syncAll "devA" 999 false sweepConflictState).fst.syncStatus = SyncStatus.synced := by
  decide

/-- C9: `syncAll` is guarded by the single `syncInProgress` flag — a call
made while a sweep is in flight returns the state unchanged with no
provider call or store write; an unguarded sweep clears the flag on every
path and ends with status `synced` on success and `error` when the body
throws. -/
theorem syncAll_guard_and_status (dev : String) (now : Nat) (bodyFails : Bool)
    (st : EngineState) :
    (st.syncInProgress = true → syncAll dev now bodyFails st = (st, [])) ∧
    (st.syncInProgress = false →
      (syncAll dev now bodyFails st).fst.syncInProgress = false ∧
      (syncAll dev now bodyFails st).fst.syncStatus =
        (if bodyFails then SyncStatus.error else SyncStatus.synced)) := by
  constructor
  · intro h
    unfold syncAll
    simp [h]
  · intro h
    unfold syncAll
    simp only [h, Bool.false_eq_true, if_false, ite_false]
    cases bodyFails
    · simp
    · simp

theorem syncAll_guard_and_status_witness :
    (syncAll "devA" 1 false busyState = (busyState, [])) ∧
    ((syncAll "devA" 1 false emptyState).fst.syncInProgress = false ∧
      (syncAll "devA" 1 false emptyState).fst.syncStatus =
        (if false then SyncStatus.error else SyncStatus.synced)) :=
  ⟨(syncAll_guard_and_status "devA" 1 false busyState).1 rfl,
   (syncAll_guard_and_status "devA" 1 false emptyState).2 rfl⟩

end SyncExcal
